import Mathlib

/-!
Verification of the fishery-catch dashboard core (`src/streamlit_app.py`).

The table is a `List CatchRecord` (a pandas `DataFrame` row list, in row
order).  Dates are proleptic-Gregorian day ordinals (`datetime.date.toordinal`),
so date comparisons are `Nat` comparisons; `738886` is the ordinal of
2024-01-01.  Weights are rationals (the idealised value of the floats the
program manipulates).
-/

/-- One row of the DataFrame built by `generate_sample_data`
(columns `Date`, `Site`, `Species`, `Catch_Weight_kg`, `Gear_Type`). -/
structure CatchRecord where
  Date : Nat
  Site : String
  Species : String
  Catch_Weight_kg : ℚ
  Gear_Type : String
deriving DecidableEq

/-- `sites` vocabulary (line 25). -/
def sites : List String :=
  ["Fumba Bay", "Nungwi Reef", "Kizimkazi Channel", "Mnemba Atoll", "Paje Kelp Beds"]

/-- `species` vocabulary (line 26). -/
def species : List String :=
  ["Tuna", "Snapper", "Grouper", "Mackerel", "Sardines", "Octopus", "Lobster"]

/-- `gear` vocabulary (line 27). -/
def gear : List String :=
  ["Longline", "Handline", "Net", "Trap", "Spear"]

/-- Day ordinal of `datetime(2024, 1, 1)` (line 23). -/
def start_date_ordinal : Nat := 738886

/-- `np.random.randint(0, 365*1.2)` draws from `[0, 438)`: `365*1.2 = 438.0`
and numpy truncates the float bound to the integer `438` (line 24). -/
def date_window : Nat := 438

/-- Round a rational to the nearest integer, ties to even — the rounding
`numpy.round` applies (line 33 rounds weights to 2 decimal places). -/
def rnd2int (q : ℚ) : ℤ :=
  if q - ⌊q⌋ < 1/2 then ⌊q⌋
  else if 1/2 < q - ⌊q⌋ then ⌊q⌋ + 1
  else if ⌊q⌋ % 2 = 0 then ⌊q⌋ else ⌊q⌋ + 1

/-- `.round(2)` on a weight: round to 2 decimal places (line 33). -/
def round2 (q : ℚ) : ℚ := (rnd2int (q * 100) : ℚ) / 100

/-- The streams of draws `generate_sample_data` takes from numpy's global
random source, one draw per record index: `np.random.randint(0, 438)` for the
date offset, `np.random.choice` index draws for site/species/gear, and
`np.random.uniform(5, 150)` for the raw weight (lines 24, 31-34). -/
structure RandSource where
  dateOff : Nat → Nat
  siteIdx : Nat → Nat
  speciesIdx : Nat → Nat
  weightRaw : Nat → ℚ
  gearIdx : Nat → Nat

/-- `generate_sample_data` (lines 21-39): build `num_records` rows — date =
2024-01-01 plus the drawn offset, site/species/gear picked from their
vocabularies by the drawn index, weight = the drawn uniform value rounded to
2 decimals — then sort the table by `Date` ascending. -/
def generate_sample_data (rs : RandSource) (num_records : Nat := 500) : List CatchRecord :=
  ((List.range num_records).map (fun i =>
    { Date := start_date_ordinal + rs.dateOff i
      Site := sites.getD (rs.siteIdx i) ""
      Species := species.getD (rs.speciesIdx i) ""
      Catch_Weight_kg := round2 (rs.weightRaw i)
      Gear_Type := gear.getD (rs.gearIdx i) "" })).mergeSort
    (fun a b => a.Date ≤ b.Date)

/-- Lines 60-64: `start_date`/`end_date` are initialised to the table's global
min/max date and replaced by the widget's pair only when the widget returned
exactly two dates. -/
def resolve_date_range (min_date max_date : Nat) (date_range : List Nat) : Nat × Nat :=
  if date_range.length = 2 then (date_range.getD 0 min_date, date_range.getD 1 max_date)
  else (min_date, max_date)

/-- `filtered_df` (lines 77-81): conjunction of the three boolean masks
`Date >= start_date`, `Date <= end_date`, `Site.isin(selected_sites)`. -/
def filtered_df (df : List CatchRecord) (start_date end_date : Nat)
    (selected_sites : List String) : List CatchRecord :=
  df.filter (fun r =>
    decide (start_date ≤ r.Date) && decide (r.Date ≤ end_date) &&
      selected_sites.contains r.Site)

/-- `filtered_df['Catch_Weight_kg'].sum()` (line 90). -/
def total_catch (f : List CatchRecord) : ℚ := (f.map (·.Catch_Weight_kg)).sum

/-- `len(filtered_df)` (line 91). -/
def num_records_filtered (f : List CatchRecord) : Nat := f.length

/-- `filtered_df['Catch_Weight_kg'].mean()` (line 92): sum divided by count. -/
def avg_catch_per_record (f : List CatchRecord) : ℚ :=
  total_catch f / (num_records_filtered f : ℚ)

/-- Sum of `Catch_Weight_kg` over the rows whose key equals `k`. -/
def keySum {κ : Type} [DecidableEq κ] (key : CatchRecord → κ) (k : κ)
    (f : List CatchRecord) : ℚ :=
  ((f.filter (fun r => decide (key r = k))).map (·.Catch_Weight_kg)).sum

/-- `groupby(col)['Catch_Weight_kg'].sum().reset_index()`: one row per
distinct key with the in-group sum; pandas emits the group keys sorted
ascending (`sort=True` default). -/
def groupby_sum {κ : Type} [DecidableEq κ] (key : CatchRecord → κ)
    (keyLe : κ → κ → Bool) (f : List CatchRecord) : List (κ × ℚ) :=
  (((f.map key).dedup).mergeSort keyLe).map (fun k => (k, keySum key k f))

/-- `time_series_df` (line 113): group by `Date`, sum the catch. -/
def time_series_df (f : List CatchRecord) : List (Nat × ℚ) :=
  groupby_sum (fun r => r.Date) (fun a b => a ≤ b) f

/-- `site_catch_df` (line 131): group by `Site`, sum, then sort descending by
the summed weight. -/
def site_catch_df (f : List CatchRecord) : List (String × ℚ) :=
  (groupby_sum (fun r => r.Site) (fun a b => a ≤ b) f).mergeSort
    (fun a b => b.2 ≤ a.2)

/-- `species_catch_df` (line 159): group by `Species`, sum, sort descending by
the summed weight. -/
def species_catch_df (f : List CatchRecord) : List (String × ℚ) :=
  (groupby_sum (fun r => r.Species) (fun a b => a ≤ b) f).mergeSort
    (fun a b => b.2 ≤ a.2)

/-- `gear_catch_df` (line 145): group by `Gear_Type`, sum (no value sort). -/
def gear_catch_df (f : List CatchRecord) : List (String × ℚ) :=
  groupby_sum (fun r => r.Gear_Type) (fun a b => a ≤ b) f

/-- Outcome of the metrics block (lines 89-103): either the three KPIs are
computed and shown, or the warning is shown. -/
inductive MetricsView
| shown (total : ℚ) (count : Nat) (avg : ℚ)
| warning
deriving DecidableEq

/-- Lines 89-103: metrics (including the mean's division) are computed only
when `filtered_df` is non-empty; otherwise only a warning is emitted. -/
def render_metrics (filtered : List CatchRecord) : MetricsView :=
  if filtered.isEmpty then MetricsView.warning
  else MetricsView.shown (total_catch filtered) (num_records_filtered filtered)
    (avg_catch_per_record filtered)

/-- Outcome of the main body (lines 107-195): either the charts plus the
filtered data table, or the fallback preview of the raw table. -/
inductive BodyView
| analysis (ts : List (Nat × ℚ)) (bySite bySpecies byGear : List (String × ℚ))
    (table : List CatchRecord)
| fallback_preview (preview : List CatchRecord)
deriving DecidableEq

/-- Lines 107-195: when `filtered_df` is non-empty, render the grouped charts
and the filtered table; otherwise show `df.head(100)` (lines 192-195). -/
def render_body (df filtered : List CatchRecord) : BodyView :=
  if filtered.isEmpty then BodyView.fallback_preview (df.take 100)
  else BodyView.analysis (time_series_df filtered) (site_catch_df filtered)
    (species_catch_df filtered) (gear_catch_df filtered) filtered

/-- A concrete record used by witnesses. -/
def sampleRec : CatchRecord :=
  { Date := 738886, Site := "Fumba Bay", Species := "Tuna",
    Catch_Weight_kg := 10, Gear_Type := "Net" }

/-- C1 counterexample: with table min 0 and max 10 and only the single
endpoint 5 supplied, the code does not keep the supplied endpoint — the claim
would require the resolved interval to be `(5, 10)`. -/
theorem C1_counterexample : resolve_date_range 0 10 [5] ≠ (5, 10) := by
  decide

/-- C1 (amended): whenever the widget supplies fewer (or more) than two
endpoints, the engine ignores every supplied endpoint and resolves the
interval to the table's global `[min_date, max_date]`; it does not fail. -/
theorem C1_degenerate_defaults (min_date max_date : Nat) (date_range : List Nat)
    (h : date_range.length ≠ 2) :
    resolve_date_range min_date max_date date_range = (min_date, max_date) := by
  simp [resolve_date_range, h]

/-- C1 witness: the amended behaviour at the concrete input `[5]`. -/
theorem C1_degenerate_defaults_witness :
    ([5] : List Nat).length ≠ 2 ∧ resolve_date_range 0 10 [5] = (0, 10) :=
  ⟨by decide, C1_degenerate_defaults 0 10 [5] (by decide)⟩

/-- C2: the filter returns exactly the subsequence of the table consisting of
the records whose date lies in the inclusive interval and whose site is a
member of the selected set. -/
theorem C2_filter_exact (df : List CatchRecord) (s e : Nat) (sel : List String) :
    (filtered_df df s e sel).Sublist df ∧
    filtered_df df s e sel =
      df.filter (fun r => decide (s ≤ r.Date ∧ r.Date ≤ e ∧ r.Site ∈ sel)) := by
  refine ⟨List.filter_sublist df, ?_⟩
  unfold filtered_df
  apply List.filter_congr
  intro r _
  simp [Bool.decide_and, Bool.and_assoc]

/-- C5: with an empty selected-site set the filtered table is empty for every
table and interval, and the body renderer takes the fallback-preview path. -/
theorem C5_empty_sites (df : List CatchRecord) (s e : Nat) :
    filtered_df df s e [] = [] ∧
    render_body df (filtered_df df s e []) =
      BodyView.fallback_preview (df.take 100) := by
  have h : filtered_df df s e [] = [] := by
    simp [filtered_df]
  exact ⟨h, by rw [h]; rfl⟩

/-- C6: whenever the filtered table is empty, no aggregate is computed — the
metrics block emits only the warning, so the mean's division is never
attempted on zero rows — and the body shows the first 100 rows of the
unfiltered table. -/
theorem C6_empty_fallback (df : List CatchRecord) (s e : Nat) (sel : List String)
    (h : filtered_df df s e sel = []) :
    render_metrics (filtered_df df s e sel) = MetricsView.warning ∧
    render_body df (filtered_df df s e sel) =
      BodyView.fallback_preview (df.take 100) := by
  rw [h]
  exact ⟨rfl, rfl⟩

/-- C6 witness: a one-row table whose filter selects nothing. -/
theorem C6_empty_fallback_witness :
    filtered_df [sampleRec] 0 0 [] = [] ∧
    render_metrics (filtered_df [sampleRec] 0 0 []) = MetricsView.warning ∧
    render_body [sampleRec] (filtered_df [sampleRec] 0 0 []) =
      BodyView.fallback_preview ([sampleRec].take 100) :=
  ⟨by decide, C6_empty_fallback [sampleRec] 0 0 [] (by decide)⟩

/-- C7: filtering is idempotent — re-filtering the filtered table with the
same interval and site set returns it unchanged. -/
theorem C7_filter_idempotent (df : List CatchRecord) (s e : Nat)
    (sel : List String) :
    filtered_df (filtered_df df s e sel) s e sel = filtered_df df s e sel := by
  unfold filtered_df
  rw [List.filter_filter]
  apply List.filter_congr
  intro r _
  cases h : (decide (s ≤ r.Date) && decide (r.Date ≤ e) && sel.contains r.Site) <;>
    simp [h]

/-- C8: for every table of records with nonnegative weights (the data-model
invariant `weight_kg > 0`), the filtered total catch is at most the table's
total catch. -/
theorem C8_filtered_sum_le (df : List CatchRecord) (s e : Nat) (sel : List String)
    (h : ∀ r ∈ df, 0 ≤ r.Catch_Weight_kg) :
    total_catch (filtered_df df s e sel) ≤ total_catch df := by
  apply List.Sublist.sum_le_sum ((List.filter_sublist df).map _)
  intro x hx
  obtain ⟨r, hr, rfl⟩ := List.mem_map.1 hx
  exact h r hr

/-- C8 witness: the one-row table at a filter that drops the row. -/
theorem C8_filtered_sum_le_witness :
    (∀ r ∈ [sampleRec], 0 ≤ r.Catch_Weight_kg) ∧
    total_catch (filtered_df [sampleRec] 0 0 []) ≤ total_catch [sampleRec] :=
  ⟨by decide, C8_filtered_sum_le [sampleRec] 0 0 [] (by decide)⟩

/-- Splitting a table by a boolean predicate splits its total catch. -/
theorem total_catch_filter_split (p : CatchRecord → Bool) (l : List CatchRecord) :
    total_catch (l.filter p) + total_catch (l.filter (fun r => !(p r))) =
      total_catch l := by
  induction l with
  | nil => simp [total_catch]
  | cons r t ih =>
    cases hp : p r <;>
      simp [total_catch, List.filter_cons, hp] at ih ⊢ <;> linarith

/-- Rows with a key other than `k` are untouched by dropping the key-`k` rows. -/
theorem keySum_filter_ne {κ : Type} [DecidableEq κ] (key : CatchRecord → κ)
    (k k' : κ) (hne : k' ≠ k) (l : List CatchRecord) :
    keySum key k' (l.filter (fun r => !(decide (key r = k)))) = keySum key k' l := by
  unfold keySum
  have hfil : (l.filter fun a => decide (key a = k') && !decide (key a = k))
      = l.filter (fun r => decide (key r = k')) := by
    apply List.filter_congr
    intro r _
    by_cases h : key r = k'
    · simp [h, hne]
    · simp [h]
  rw [List.filter_filter, hfil]

/-- Summing the per-key catch over a duplicate-free list of keys covering the
table gives the table's total catch. -/
theorem keySum_partition {κ : Type} [DecidableEq κ] (key : CatchRecord → κ) :
    ∀ ks : List κ, ks.Nodup → ∀ l : List CatchRecord, (∀ r ∈ l, key r ∈ ks) →
      (ks.map (fun k => keySum key k l)).sum = total_catch l := by
  intro ks
  induction ks with
  | nil =>
    intro _ l hcov
    cases l with
    | nil => simp [total_catch]
    | cons r t => exact absurd (hcov r (by simp)) (by simp)
  | cons k ks ih =>
    intro hnd l hcov
    rw [List.nodup_cons] at hnd
    obtain ⟨hk, hks⟩ := hnd
    have hrest : (ks.map (fun kk => keySum key kk l)).sum
        = total_catch (l.filter (fun r => !(decide (key r = k)))) := by
      have hmap : ks.map (fun kk => keySum key kk l)
          = ks.map (fun kk =>
              keySum key kk (l.filter (fun r => !(decide (key r = k))))) := by
        apply List.map_congr_left
        intro kk hkk
        exact (keySum_filter_ne key k kk (fun hEq => hk (hEq ▸ hkk)) l).symm
      rw [hmap]
      apply ih hks
      intro r hr
      rw [List.mem_filter] at hr
      obtain ⟨hrl, hrk⟩ := hr
      rcases List.mem_cons.1 (hcov r hrl) with hEq | hmem
      · exact absurd hEq (by simpa using hrk)
      · exact hmem
    rw [List.map_cons, List.sum_cons, hrest]
    exact total_catch_filter_split (fun r => decide (key r = k)) l

/-- The rows emitted by `groupby_sum` add up to the table's total catch. -/
theorem groupby_sum_total {κ : Type} [DecidableEq κ] (key : CatchRecord → κ)
    (keyLe : κ → κ → Bool) (l : List CatchRecord) :
    ((groupby_sum key keyLe l).map Prod.snd).sum = total_catch l := by
  unfold groupby_sum
  rw [List.map_map]
  have hperm : List.Perm
      (((l.map key).dedup.mergeSort keyLe).map
        (Prod.snd ∘ fun k => (k, keySum key k l)))
      (((l.map key).dedup).map (fun k => keySum key k l)) :=
    (List.mergeSort_perm _ _).map _
  rw [hperm.sum_eq]
  exact keySum_partition key _ (List.nodup_dedup _) l
    (fun r hr => List.mem_dedup.2 (List.mem_map_of_mem key hr))

/-- Re-sorting a grouped table does not change the sum of its value column. -/
theorem snd_sum_mergeSort (l : List (String × ℚ))
    (le : String × ℚ → String × ℚ → Bool) :
    ((l.mergeSort le).map Prod.snd).sum = (l.map Prod.snd).sum :=
  ((List.mergeSort_perm l le).map Prod.snd).sum_eq

/-- C3: for every filtered table, the grouped sums — by site, by species, and
by gear — each add up to the global total catch of that table. -/
theorem C3_group_sums_partition (f : List CatchRecord) :
    ((site_catch_df f).map Prod.snd).sum = total_catch f ∧
    ((species_catch_df f).map Prod.snd).sum = total_catch f ∧
    ((gear_catch_df f).map Prod.snd).sum = total_catch f := by
  refine ⟨?_, ?_, ?_⟩
  · unfold site_catch_df
    rw [snd_sum_mergeSort]
    exact groupby_sum_total _ _ f
  · unfold species_catch_df
    rw [snd_sum_mergeSort]
    exact groupby_sum_total _ _ f
  · exact groupby_sum_total _ _ f

/-- Transitivity of the date comparison used by the generator's sort. -/
theorem dateLe_trans : ∀ a b c : CatchRecord,
    (decide (a.Date ≤ b.Date)) = true → (decide (b.Date ≤ c.Date)) = true →
    (decide (a.Date ≤ c.Date)) = true := by
  intro a b c hab hbc
  simp only [decide_eq_true_eq] at hab hbc ⊢
  omega

/-- Totality of the date comparison used by the generator's sort. -/
theorem dateLe_total : ∀ a b : CatchRecord,
    ((decide (a.Date ≤ b.Date)) || (decide (b.Date ≤ a.Date))) = true := by
  intro a b
  simp [Nat.le_total]

/-- Line 38: the generated table is sorted non-decreasing by date. -/
theorem generate_sample_data_sorted (rs : RandSource) (N : Nat) :
    (generate_sample_data rs N).Pairwise (fun a b => a.Date ≤ b.Date) := by
  unfold generate_sample_data
  have h := List.sorted_mergeSort dateLe_trans dateLe_total
    ((List.range N).map (fun i =>
      { Date := start_date_ordinal + rs.dateOff i
        Site := sites.getD (rs.siteIdx i) ""
        Species := species.getD (rs.speciesIdx i) ""
        Catch_Weight_kg := round2 (rs.weightRaw i)
        Gear_Type := gear.getD (rs.gearIdx i) "" }))
  exact h.imp (fun hab => by simpa using hab)

/-- C10: every filtered view of the generated table keeps the ascending date
order — the generator sorts by date and the boolean-mask filter preserves
record order. -/
theorem C10_filtered_date_sorted (rs : RandSource) (N s e : Nat)
    (sel : List String) :
    (filtered_df (generate_sample_data rs N) s e sel).Pairwise
      (fun a b => a.Date ≤ b.Date) :=
  (generate_sample_data_sorted rs N).sublist (List.filter_sublist _)

/-- The key column of `groupby_sum` is sorted by `keyLe` whenever `keyLe` is
transitive and total. -/
theorem groupby_sum_keys_sorted {κ : Type} [DecidableEq κ] (key : CatchRecord → κ)
    (keyLe : κ → κ → Bool)
    (htrans : ∀ a b c : κ, keyLe a b = true → keyLe b c = true → keyLe a c = true)
    (htotal : ∀ a b : κ, (keyLe a b || keyLe b a) = true)
    (f : List CatchRecord) :
    (groupby_sum key keyLe f).Pairwise (fun a b => keyLe a.1 b.1 = true) := by
  unfold groupby_sum
  rw [List.pairwise_map]
  exact List.sorted_mergeSort htrans htotal _

/-- Transitivity of the descending weight comparison of `sort_values`. -/
theorem wtGe_trans : ∀ a b c : String × ℚ,
    (decide (b.2 ≤ a.2)) = true → (decide (c.2 ≤ b.2)) = true →
    (decide (c.2 ≤ a.2)) = true := by
  intro a b c hab hbc
  simp only [decide_eq_true_eq] at hab hbc ⊢
  exact le_trans hbc hab

/-- Totality of the descending weight comparison of `sort_values`. -/
theorem wtGe_total : ∀ a b : String × ℚ,
    ((decide (b.2 ≤ a.2)) || (decide (a.2 ≤ b.2))) = true := by
  intro a b
  simp [le_total]

/-- C9: for every non-empty filtered table, the by-date grouped sums ascend by
date and the by-site and by-species grouped sums descend by summed weight. -/
theorem C9_group_orderings (f : List CatchRecord) (_h : f ≠ []) :
    (time_series_df f).Pairwise (fun a b => a.1 ≤ b.1) ∧
    (site_catch_df f).Pairwise (fun a b => b.2 ≤ a.2) ∧
    (species_catch_df f).Pairwise (fun a b => b.2 ≤ a.2) := by
  refine ⟨?_, ?_, ?_⟩
  · have hts := groupby_sum_keys_sorted (fun r => r.Date)
      (fun a b => decide (a ≤ b))
      (by intro a b c hab hbc; simp only [decide_eq_true_eq] at hab hbc ⊢; omega)
      (by intro a b; simp [Nat.le_total]) f
    exact hts.imp (fun hab => by simpa using hab)
  · have hs := List.sorted_mergeSort wtGe_trans wtGe_total
      (groupby_sum (fun r => r.Site) (fun a b => decide (a ≤ b)) f)
    exact hs.imp (fun hab => by simpa using hab)
  · have hs := List.sorted_mergeSort wtGe_trans wtGe_total
      (groupby_sum (fun r => r.Species) (fun a b => decide (a ≤ b)) f)
    exact hs.imp (fun hab => by simpa using hab)

/-- C9 witness: the orderings at the concrete one-row table. -/
theorem C9_group_orderings_witness :
    ([sampleRec] ≠ []) ∧
    ((time_series_df [sampleRec]).Pairwise (fun a b => a.1 ≤ b.1) ∧
     (site_catch_df [sampleRec]).Pairwise (fun a b => b.2 ≤ a.2) ∧
     (species_catch_df [sampleRec]).Pairwise (fun a b => b.2 ≤ a.2)) :=
  ⟨by decide, C9_group_orderings [sampleRec] (by decide)⟩

/-- `rnd2int` never rounds below an integer lower bound. -/
theorem rnd2int_ge (c : ℤ) (q : ℚ) (h : (c : ℚ) ≤ q) : c ≤ rnd2int q := by
  have hfloor : c ≤ ⌊q⌋ := Int.le_floor.2 h
  unfold rnd2int
  split
  · exact hfloor
  split
  · omega
  split
  · exact hfloor
  · omega

/-- `rnd2int` never rounds above an integer upper bound. -/
theorem rnd2int_le (c : ℤ) (q : ℚ) (h : q ≤ (c : ℚ)) : rnd2int q ≤ c := by
  have hfloor : ⌊q⌋ ≤ c := by
    have h2 := Int.floor_le_floor h
    simpa using h2
  unfold rnd2int
  split
  · exact hfloor
  next hlt =>
    have hhalf : (1/2 : ℚ) ≤ q - ⌊q⌋ := not_lt.1 hlt
    have hstrict : ⌊q⌋ < c := by
      rcases lt_or_eq_of_le hfloor with hlt2 | hEq
      · exact hlt2
      · exfalso
        have hfl : (⌊q⌋ : ℚ) ≤ q := Int.floor_le q
        rw [hEq] at hhalf
        linarith
    split
    · omega
    split
    · omega
    · omega

/-- Bounds of `.round(2)`: a raw weight in `[5, 150]` rounds into `[5, 150]`. -/
theorem round2_mem (q : ℚ) (hlo : 5 ≤ q) (hhi : q ≤ 150) :
    5 ≤ round2 q ∧ round2 q ≤ 150 := by
  have h1 : (500 : ℤ) ≤ rnd2int (q * 100) := by
    apply rnd2int_ge
    push_cast
    linarith
  have h2 : rnd2int (q * 100) ≤ (15000 : ℤ) := by
    apply rnd2int_le
    push_cast
    linarith
  have h1q : ((500 : ℤ) : ℚ) ≤ (rnd2int (q * 100) : ℚ) := by exact_mod_cast h1
  have h2q : ((rnd2int (q * 100) : ℤ) : ℚ) ≤ ((15000 : ℤ) : ℚ) := by exact_mod_cast h2
  unfold round2
  constructor
  · rw [le_div_iff₀ (by norm_num : (0:ℚ) < 100)]
    push_cast at h1q ⊢
    linarith
  · rw [div_le_iff₀ (by norm_num : (0:ℚ) < 100)]
    push_cast at h2q ⊢
    linarith

/-- A rounded weight has at most 2 decimal places: scaled by 100 it is an
integer. -/
theorem round2_two_decimals (q : ℚ) : (round2 q * 100).den = 1 := by
  unfold round2
  rw [div_mul_cancel₀]
  · exact Rat.den_intCast _
  · norm_num

/-- Every generated row comes from some draw index `i < N`. -/
theorem mem_generate_sample_data (rs : RandSource) (N : Nat) (r : CatchRecord)
    (hr : r ∈ generate_sample_data rs N) :
    ∃ i, i < N ∧ r = { Date := start_date_ordinal + rs.dateOff i
                       Site := sites.getD (rs.siteIdx i) ""
                       Species := species.getD (rs.speciesIdx i) ""
                       Catch_Weight_kg := round2 (rs.weightRaw i)
                       Gear_Type := gear.getD (rs.gearIdx i) "" } := by
  unfold generate_sample_data at hr
  rw [List.mem_mergeSort] at hr
  obtain ⟨i, hi, hEq⟩ := List.mem_map.1 hr
  exact ⟨i, List.mem_range.1 hi, hEq.symm⟩

/-- C4: with in-range draws (`randint(0, 438)` offsets, `uniform(5, 150)` raw
weights), the generator yields exactly `N` records, each weight in `[5, 150]`
rounded to 2 decimal places, each date in the 438-day window starting
2024-01-01, and the output sorted non-decreasing by date. -/
theorem C4_generator (rs : RandSource) (N : Nat)
    (hdate : ∀ i, rs.dateOff i < date_window)
    (hwlo : ∀ i, 5 ≤ rs.weightRaw i) (hwhi : ∀ i, rs.weightRaw i ≤ 150) :
    (generate_sample_data rs N).length = N ∧
    (∀ r ∈ generate_sample_data rs N,
      (5 ≤ r.Catch_Weight_kg ∧ r.Catch_Weight_kg ≤ 150 ∧
        (r.Catch_Weight_kg * 100).den = 1) ∧
      (start_date_ordinal ≤ r.Date ∧ r.Date < start_date_ordinal + date_window)) ∧
    (generate_sample_data rs N).Pairwise (fun a b => a.Date ≤ b.Date) := by
  refine ⟨?_, ?_, generate_sample_data_sorted rs N⟩
  · unfold generate_sample_data
    rw [List.length_mergeSort, List.length_map, List.length_range]
  · intro r hr
    obtain ⟨i, hiN, rfl⟩ := mem_generate_sample_data rs N r hr
    obtain ⟨h5, h150⟩ := round2_mem (rs.weightRaw i) (hwlo i) (hwhi i)
    refine ⟨⟨h5, h150, round2_two_decimals _⟩, ?_, ?_⟩
    · show start_date_ordinal ≤ start_date_ordinal + rs.dateOff i
      omega
    · show start_date_ordinal + rs.dateOff i < start_date_ordinal + date_window
      have hd := hdate i
      omega

/-- A concrete random source used by the C4 witness. -/
def sampleRand : RandSource :=
  { dateOff := fun i => i % date_window
    siteIdx := fun _ => 0
    speciesIdx := fun _ => 0
    weightRaw := fun _ => 10
    gearIdx := fun _ => 0 }

/-- C4 witness: the generator contract at a concrete random source, N = 2. -/
theorem C4_generator_witness :
    (generate_sample_data sampleRand 2).length = 2 ∧
    (∀ r ∈ generate_sample_data sampleRand 2,
      (5 ≤ r.Catch_Weight_kg ∧ r.Catch_Weight_kg ≤ 150 ∧
        (r.Catch_Weight_kg * 100).den = 1) ∧
      (start_date_ordinal ≤ r.Date ∧ r.Date < start_date_ordinal + date_window)) ∧
    (generate_sample_data sampleRand 2).Pairwise (fun a b => a.Date ≤ b.Date) :=
  C4_generator sampleRand 2
    (fun i => Nat.mod_lt i (by decide))
    (fun _ => by norm_num [sampleRand])
    (fun _ => by norm_num [sampleRand])
